import Mathlib

/-!
Verification development for the CapsNet notebook
(`deep-learning/CapsNET/PyTorch_Implementation/Straightforward CapsNET
Implementation.ipynb`).

The notebook defines `squash_vector`, a custom `softmax`, the classes
`CapsuleLayer`, `MarginLoss`, `CapsuleNet`, and a train/test loop over MNIST.
Tensor slices along the squashed dimension are modelled as real-valued vectors
`Fin d → ℝ`; batched tensor operations are modelled per batch element, and
shape-level behaviour is modelled by functions on `List ℕ` shapes.
-/

namespace CapsNet

open Finset

/-- A tensor slice along one dimension: a vector of `d` real entries. -/
abbrev Vec (d : ℕ) := Fin d → ℝ

/-- `(tensor**2).sum(dim=dim)` for one slice: the squared Euclidean norm. -/
noncomputable def squaredNorm {d : ℕ} (v : Vec d) : ℝ := ∑ k, v k ^ 2

/-- `squash_vector` from the notebook, per slice:
`scale = squared_norm / (1 + squared_norm)` and the result is
`scale * tensor / torch.sqrt(squared_norm)`, with no guard on the divisor. -/
noncomputable def squash_vector {d : ℕ} (v : Vec d) : Vec d :=
  fun k => squaredNorm v / (1 + squaredNorm v) * v k / Real.sqrt (squaredNorm v)

/-- Euclidean norm of a slice. -/
noncomputable def euclNorm {d : ℕ} (v : Vec d) : ℝ := Real.sqrt (squaredNorm v)

lemma squaredNorm_nonneg {d : ℕ} (v : Vec d) : 0 ≤ squaredNorm v :=
  Finset.sum_nonneg fun k _ => sq_nonneg (v k)

lemma squaredNorm_smul {d : ℕ} (c : ℝ) (v : Vec d) :
    squaredNorm (fun k => c * v k) = c ^ 2 * squaredNorm v := by
  unfold squaredNorm
  rw [Finset.mul_sum]
  exact Finset.sum_congr rfl fun k _ => by ring

/-- C9: on a slice `v` of positive norm, `squash_vector` returns
`(|v|^2 / (1 + |v|^2)) * (v / |v|)`; the resulting norm is exactly
`|v|^2 / (1 + |v|^2)`, hence strictly below 1; the result is a positive
multiple of `v` (same direction); and at the all-zero slice the unguarded
divisor `sqrt(squared_norm)` is 0 (and the numerator as well), so the code
divides zero by zero there. -/
theorem squash_vector_spec {d : ℕ} (v : Vec d) (h : 0 < squaredNorm v) :
    (∀ k, squash_vector v k =
        squaredNorm v / (1 + squaredNorm v) * (v k / Real.sqrt (squaredNorm v))) ∧
    euclNorm (squash_vector v) = squaredNorm v / (1 + squaredNorm v) ∧
    euclNorm (squash_vector v) < 1 ∧
    (∃ c : ℝ, 0 < c ∧ ∀ k, squash_vector v k = c * v k) ∧
    Real.sqrt (squaredNorm (fun _ : Fin d => (0 : ℝ))) = 0 := by
  have h1 : (0 : ℝ) < 1 + squaredNorm v := by linarith
  have hs : 0 < Real.sqrt (squaredNorm v) := Real.sqrt_pos.mpr h
  have hscale : 0 < squaredNorm v / (1 + squaredNorm v) := div_pos h h1
  have hc : 0 < squaredNorm v / (1 + squaredNorm v) / Real.sqrt (squaredNorm v) :=
    div_pos hscale hs
  have hform : ∀ k, squash_vector v k =
      squaredNorm v / (1 + squaredNorm v) * (v k / Real.sqrt (squaredNorm v)) := by
    intro k
    unfold squash_vector
    rw [mul_div_assoc]
  have hmul : squash_vector v =
      fun k => squaredNorm v / (1 + squaredNorm v) / Real.sqrt (squaredNorm v) * v k := by
    funext k
    rw [hform k]
    ring
  refine ⟨hform, ?_, ?_, ⟨_, hc, fun k => by rw [hmul]⟩, ?_⟩
  · unfold euclNorm
    rw [hmul, squaredNorm_smul]
    rw [Real.sqrt_mul (sq_nonneg _), Real.sqrt_sq hc.le]
    exact div_mul_cancel₀ _ (ne_of_gt hs)
  · unfold euclNorm
    rw [hmul, squaredNorm_smul,
      Real.sqrt_mul (sq_nonneg _), Real.sqrt_sq hc.le,
      div_mul_cancel₀ _ (ne_of_gt hs)]
    rw [div_lt_one h1]
    linarith
  · simp [squaredNorm]

/-- Witness for `squash_vector_spec` at the concrete slice `![1, 0]`. -/
theorem squash_vector_spec_witness :
    0 < squaredNorm (![1, 0] : Vec 2) ∧
    ((∀ k, squash_vector (![1, 0] : Vec 2) k =
        squaredNorm (![1, 0] : Vec 2) / (1 + squaredNorm (![1, 0] : Vec 2)) *
          ((![1, 0] : Vec 2) k / Real.sqrt (squaredNorm (![1, 0] : Vec 2)))) ∧
      euclNorm (squash_vector (![1, 0] : Vec 2)) =
        squaredNorm (![1, 0] : Vec 2) / (1 + squaredNorm (![1, 0] : Vec 2)) ∧
      euclNorm (squash_vector (![1, 0] : Vec 2)) < 1 ∧
      (∃ c : ℝ, 0 < c ∧ ∀ k, squash_vector (![1, 0] : Vec 2) k = c * (![1, 0] : Vec 2) k) ∧
      Real.sqrt (squaredNorm (fun _ : Fin 2 => (0 : ℝ))) = 0) := by
  have hpos : 0 < squaredNorm (![1, 0] : Vec 2) := by
    simp [squaredNorm, Fin.sum_univ_two]
  exact ⟨hpos, squash_vector_spec _ hpos⟩

/-! ### Dynamic routing (`CapsuleLayer.forward`, `num_routes != -1` branch)

One batch element is modelled; `m` output capsules, `r` routes (input
capsules), `ic`/`oc` input/output channels.  The notebook's `logits` tensor
has shape `(m, batch, r, 1, oc)`; it starts at zero and every update adds
`(priors * outputs).sum(dim=-1, keepdim=True)`, which is constant along the
`oc` axis, so the logits stay constant along that axis and are modelled as one
scalar per (capsule, route).  The notebook's `softmax(logits, dim=2)`
normalises over the route axis (dim 2), i.e. over `r` for each capsule. -/

/-- `priors = x[None, :, :, None, :] @ self.route_weights[:, None, :, :, :]`
for one batch element: prediction vector of capsule `i` from route `j`. -/
noncomputable def computePriors {m r ic oc : ℕ}
    (route_weights : Fin m → Fin r → Fin ic → Fin oc → ℝ)
    (x : Fin r → Fin ic → ℝ) : Fin m → Fin r → Vec oc :=
  fun i j k => ∑ l, x j l * route_weights i j l k

/-- The notebook's custom `softmax` applied along one row of `r` entries. -/
noncomputable def softmaxRow {r : ℕ} (f : Fin r → ℝ) : Fin r → ℝ :=
  fun j => Real.exp (f j) / ∑ j2, Real.exp (f j2)

/-- `logits = Variable(torch.zeros(priors.size()))`: the all-zero logits. -/
def initialLogits (m r : ℕ) : Fin m → Fin r → ℝ := fun _ _ => 0

/-- One routing iteration's `outputs`:
`squash_vector(probs * priors).sum(dim=2, keepdim=True)` — note that the code
applies `squash_vector` (along the last axis) to each coupling-weighted prior
BEFORE summing over the route axis (dim 2). -/
noncomputable def routingOutputs {m r d : ℕ} (priors : Fin m → Fin r → Vec d)
    (logits : Fin m → Fin r → ℝ) : Fin m → Vec d :=
  fun i k => ∑ j, squash_vector (fun k2 => softmaxRow (logits i) j * priors i j k2) k

/-- `delta_logits = (priors * outputs).sum(dim=-1, keepdim=True)`: the
agreement (dot product) between each prior and its capsule's output. -/
noncomputable def routingDelta {m r d : ℕ} (priors : Fin m → Fin r → Vec d)
    (outs : Fin m → Vec d) : Fin m → Fin r → ℝ :=
  fun i j => ∑ k, priors i j k * outs i k

/-- Result of the routing loop, instrumented with the number of iterations of
the loop body that ran and the number of logit updates performed.  `outputs`
is `none` when the Python loop body never ran (`outputs` would be unbound). -/
structure RoutingResult (m d : ℕ) where
  iters : ℕ
  updates : ℕ
  outputs : Option (Fin m → Vec d)

/-- `for i in range(num_iterations): ...` with the update guarded by
`if i != self.num_iterations - 1`.  The first argument of the recursion is the
number of remaining iterations; the guard `i != n - 1` holds exactly when more
than one iteration remains. -/
noncomputable def routingLoop {m r d : ℕ} (priors : Fin m → Fin r → Vec d) :
    ℕ → (Fin m → Fin r → ℝ) → RoutingResult m d
  | 0, _ => ⟨0, 0, none⟩
  | k + 1, logits =>
    let outs := routingOutputs priors logits
    if k = 0 then ⟨1, 0, some outs⟩
    else
      let rest := routingLoop priors k
        (fun i j => logits i j + routingDelta priors outs i j)
      ⟨rest.iters + 1, rest.updates + 1, rest.outputs⟩

/-- `CapsuleLayer.forward` in the routing branch (`num_routes != -1`), for one
batch element, with `num_iterations = n`. -/
noncomputable def capsuleLayerRouted {m r ic oc : ℕ}
    (route_weights : Fin m → Fin r → Fin ic → Fin oc → ℝ)
    (x : Fin r → Fin ic → ℝ) (n : ℕ) : RoutingResult m oc :=
  routingLoop (computePriors route_weights x) n (initialLogits m r)

lemma routingLoop_count {m r d : ℕ} (priors : Fin m → Fin r → Vec d) :
    ∀ n, 1 ≤ n → ∀ logits,
      (routingLoop priors n logits).iters = n ∧
      (routingLoop priors n logits).updates = n - 1 ∧
      (routingLoop priors n logits).outputs.isSome = true := by
  intro n
  induction n with
  | zero => omega
  | succ k ih =>
    intro _ logits
    by_cases hk : k = 0
    · subst hk
      simp [routingLoop]
    · have hk1 : 1 ≤ k := Nat.one_le_iff_ne_zero.mpr hk
      have h := ih hk1
        (fun i j => logits i j + routingDelta priors (routingOutputs priors logits) i j)
      simp only [routingLoop, if_neg hk]
      exact ⟨by rw [h.1], by rw [h.2.1]; omega, h.2.2⟩

lemma softmaxRow_const {r : ℕ} (a : ℝ) (j : Fin r) :
    softmaxRow (fun _ => a) j = 1 / r := by
  unfold softmaxRow
  rw [Finset.sum_const, Finset.card_univ, Fintype.card_fin, nsmul_eq_mul]
  show Real.exp a / (r * Real.exp a) = 1 / r
  rw [div_mul_eq_div_div, div_right_comm, div_self (ne_of_gt (Real.exp_pos a))]

/-- C4: with `num_routes != -1` and `num_iterations = n ≥ 1`, the routing
body runs exactly `n` times, the logits start as the all-zero tensor (hence
the first coupling distribution is uniform, `1/r`, over the routes), the
logits are updated exactly `n - 1` times (never on the final iteration), and
the loop produces an output. -/
theorem capsule_layer_routing_iterations {m r ic oc : ℕ}
    (route_weights : Fin m → Fin r → Fin ic → Fin oc → ℝ)
    (x : Fin r → Fin ic → ℝ) (n : ℕ) (h : 1 ≤ n) :
    (capsuleLayerRouted route_weights x n).iters = n ∧
    (capsuleLayerRouted route_weights x n).updates = n - 1 ∧
    (capsuleLayerRouted route_weights x n).outputs.isSome = true ∧
    (∀ i j, initialLogits m r i j = 0) ∧
    (∀ i j, softmaxRow (initialLogits m r i) j = 1 / r) := by
  have hc := routingLoop_count (computePriors route_weights x) n h (initialLogits m r)
  exact ⟨hc.1, hc.2.1, hc.2.2, fun i j => rfl,
    fun i j => softmaxRow_const 0 j⟩

/-- Witness for `capsule_layer_routing_iterations` at a concrete layer with
one capsule, two routes, one input and one output channel, all route weights
2, input all 1, and the default `num_iterations = 3`. -/
theorem capsule_layer_routing_iterations_witness :
    1 ≤ 3 ∧
    ((capsuleLayerRouted (fun _ _ _ _ => (2 : ℝ) : Fin 1 → Fin 2 → Fin 1 → Fin 1 → ℝ)
        (fun _ _ => (1 : ℝ)) 3).iters = 3 ∧
      (capsuleLayerRouted (fun _ _ _ _ => (2 : ℝ) : Fin 1 → Fin 2 → Fin 1 → Fin 1 → ℝ)
        (fun _ _ => (1 : ℝ)) 3).updates = 3 - 1 ∧
      (capsuleLayerRouted (fun _ _ _ _ => (2 : ℝ) : Fin 1 → Fin 2 → Fin 1 → Fin 1 → ℝ)
        (fun _ _ => (1 : ℝ)) 3).outputs.isSome = true ∧
      (∀ i j, initialLogits 1 2 i j = 0) ∧
      (∀ i j, softmaxRow (initialLogits 1 2 i) j = 1 / (2 : ℕ))) :=
  ⟨by norm_num,
    capsule_layer_routing_iterations (fun _ _ _ _ => (2 : ℝ)) (fun _ _ => (1 : ℝ)) 3
      (by norm_num)⟩

/-- C1 (code bug): at a concrete routed layer — 1 capsule, 2 routes, 1 input
and 1 output channel, route weights all 2, input all 1, one iteration, so the
coupling coefficients are 1/2 — the code's output capsule value is 1, the SUM
over routes of `squash(coupling * prior)`, whereas the squash of the
coupling-weighted sum of the priors (the dynamic-routing formula the claim
states) is 4/5.  The code applies `squash_vector` before `.sum(dim=2)`. -/
theorem routing_squashes_before_sum :
    ((capsuleLayerRouted
        (fun _ _ _ _ => (2 : ℝ) : Fin 1 → Fin 2 → Fin 1 → Fin 1 → ℝ)
        (fun _ _ => (1 : ℝ)) 1).outputs.map (fun o => o 0 0) = some 1) ∧
    squash_vector (fun k : Fin 1 =>
      ∑ j : Fin 2, softmaxRow (initialLogits 1 2 0) j *
        computePriors (fun _ _ _ _ => (2 : ℝ) : Fin 1 → Fin 2 → Fin 1 → Fin 1 → ℝ)
          (fun _ _ => (1 : ℝ)) 0 j k) 0 = 4 / 5 ∧
    (1 : ℝ) ≠ 4 / 5 := by
  have hpriors : ∀ (i : Fin 1) (j : Fin 2) (k : Fin 1),
      computePriors (fun _ _ _ _ => (2 : ℝ) : Fin 1 → Fin 2 → Fin 1 → Fin 1 → ℝ)
        (fun _ _ => (1 : ℝ)) i j k = 2 := by
    intro i j k
    simp [computePriors]
  have hsoft : ∀ j : Fin 2, softmaxRow (initialLogits 1 2 0) j = 1 / 2 := by
    intro j
    have h := softmaxRow_const (0 : ℝ) j
    simpa using h
  have hsq1 : squash_vector (fun _ : Fin 1 => (1 : ℝ)) 0 = 1 / 2 := by
    simp [squash_vector, squaredNorm, Real.sqrt_one]
    norm_num
  have hsqrt4 : Real.sqrt 4 = 2 := by
    rw [show (4 : ℝ) = 2 ^ 2 by norm_num, Real.sqrt_sq (by norm_num : (0 : ℝ) ≤ 2)]
  refine ⟨?_, ?_, by norm_num⟩
  · have hloop : (capsuleLayerRouted
        (fun _ _ _ _ => (2 : ℝ) : Fin 1 → Fin 2 → Fin 1 → Fin 1 → ℝ)
        (fun _ _ => (1 : ℝ)) 1).outputs =
        some (routingOutputs
          (computePriors (fun _ _ _ _ => (2 : ℝ)) (fun _ _ => (1 : ℝ)))
          (initialLogits 1 2)) := rfl
    rw [hloop]
    simp only [Option.map_some', Option.some.injEq]
    simp only [routingOutputs, Fin.sum_univ_two, hsoft, hpriors]
    norm_num [hsq1]
  · simp only [hsoft, hpriors, Fin.sum_univ_two]
    norm_num
    simp [squash_vector, squaredNorm, hsqrt4]
    norm_num

/-! ### `MarginLoss`

`MarginLoss.forward(images, labels, classes, reconstructions)` uses only
field arithmetic, `relu` and sums, so it is modelled exactly over `ℚ`:
`b` batch samples, `c` classes, `p` pixels per image. -/

/-- `F.relu`. -/
def relu (x : ℚ) : ℚ := max x 0

/-- `nn.MSELoss(size_average=False)`: the summed squared error. -/
def mseLossSum {b p : ℕ} (input target : Fin b → Fin p → ℚ) : ℚ :=
  ∑ i, ∑ k, (input i k - target i k) ^ 2

/-- `MarginLoss.forward`: `left = relu(0.9 - classes)**2`,
`right = relu(classes - 0.1)**2`,
`margin_loss = (labels*left + 0.5*(1-labels)*right).sum()`, and the result is
`(margin_loss + 0.0005 * reconstruction_loss) / images.size(0)`. -/
def marginLossForward {b c p : ℕ} (images : Fin b → Fin p → ℚ)
    (labels classes : Fin b → Fin c → ℚ)
    (reconstructions : Fin b → Fin p → ℚ) : ℚ :=
  let left := fun (i : Fin b) (j : Fin c) => relu (0.9 - classes i j) ^ 2
  let right := fun (i : Fin b) (j : Fin c) => relu (classes i j - 0.1) ^ 2
  let margin_loss :=
    ∑ i, ∑ j, (labels i j * left i j + 0.5 * (1 - labels i j) * right i j)
  let reconstruction_loss := mseLossSum reconstructions images
  (margin_loss + 0.0005 * reconstruction_loss) / b

/-- C2: `MarginLoss.forward` returns the joint classification/reconstruction
loss: the sum over samples and classes of
`label * relu(0.9 - score)^2 + 0.5 * (1 - label) * relu(score - 0.1)^2`, plus
`0.0005` times the summed squared error between reconstructions and images,
all divided by the batch size `images.size(0)`. -/
theorem margin_loss_forward_spec {b c p : ℕ} (images : Fin b → Fin p → ℚ)
    (labels classes : Fin b → Fin c → ℚ)
    (reconstructions : Fin b → Fin p → ℚ) :
    marginLossForward images labels classes reconstructions =
      ((∑ i, ∑ j, (labels i j * relu (9 / 10 - classes i j) ^ 2
          + 1 / 2 * (1 - labels i j) * relu (classes i j - 1 / 10) ^ 2))
        + 5 / 10000 * ∑ i, ∑ k, (reconstructions i k - images i k) ^ 2) / b := by
  unfold marginLossForward mseLossSum
  norm_num

/-! ### `CapsuleNet.forward` class scores

After the digit-capsule layer, `x` has shape (batch, 10, 16) and the code runs
`classes = (x ** 2).sum(dim=-1) ** 0.5` followed by
`classes = F.softmax(classes)` (softmax over the class axis). -/

/-- The class scores returned by `CapsuleNet.forward`. -/
noncomputable def capsuleNetClasses {n : ℕ} (x : Fin n → Fin 10 → Vec 16) :
    Fin n → Fin 10 → ℝ :=
  fun i => softmaxRow (fun c => (∑ k, x i c k ^ 2) ^ (0.5 : ℝ))

/-- Lengths of the digit-capsule output vectors: Euclidean norms over the 16
output channels (the scores the claim describes). -/
noncomputable def capsuleLength {n : ℕ} (x : Fin n → Fin 10 → Vec 16) :
    Fin n → Fin 10 → ℝ :=
  fun i c => Real.sqrt (∑ k, x i c k ^ 2)

/-- C3 (counterexample): the returned class scores are NOT the capsule
lengths: at the batch where every digit-capsule entry is 2, every length is 8,
but the returned score is `softmax` of a constant row, namely 1/10. -/
theorem capsule_net_classes_not_lengths :
    capsuleNetClasses (fun _ _ _ => (2 : ℝ) : Fin 2 → Fin 10 → Vec 16) 0 0 ≠
      capsuleLength (fun _ _ _ => (2 : ℝ) : Fin 2 → Fin 10 → Vec 16) 0 0 := by
  have h1 : capsuleNetClasses (fun _ _ _ => (2 : ℝ) : Fin 2 → Fin 10 → Vec 16) 0 0
      = 1 / 10 := by
    unfold capsuleNetClasses
    rw [softmaxRow_const]
    norm_num
  have h2 : capsuleLength (fun _ _ _ => (2 : ℝ) : Fin 2 → Fin 10 → Vec 16) 0 0 = 8 := by
    unfold capsuleLength
    rw [Finset.sum_const, Finset.card_univ, Fintype.card_fin, nsmul_eq_mul]
    norm_num
    rw [show (64 : ℝ) = 8 ^ 2 by norm_num, Real.sqrt_sq (by norm_num : (0 : ℝ) ≤ 8)]
  rw [h1, h2]
  norm_num

/-- C3 (amended): the class scores returned by `CapsuleNet.forward` are the
softmax of the lengths (Euclidean norms over the 16 output channels) of the
digit-capsule output vectors. -/
theorem capsule_net_classes_softmax_of_lengths {n : ℕ}
    (x : Fin n → Fin 10 → Vec 16) (i : Fin n) (c : Fin 10) :
    capsuleNetClasses x i c = softmaxRow (capsuleLength x i) c := by
  unfold capsuleNetClasses capsuleLength
  have h : (fun c2 => (∑ k, x i c2 k ^ 2) ^ (0.5 : ℝ))
      = fun c2 => Real.sqrt (∑ k, x i c2 k ^ 2) := by
    funext c2
    rw [Real.sqrt_eq_rpow]
    norm_num
  rw [h]

/-! ### `CapsuleNet.__init__`: the fixed topology -/

/-- `nn.Conv2d(in_channels, out_channels, kernel_size, stride)` (padding 0). -/
structure Conv2dCfg where
  in_channels : ℕ
  out_channels : ℕ
  kernel_size : ℕ
  stride : ℕ
deriving DecidableEq

/-- A layer of the decoder `nn.Sequential`. -/
inductive DecoderLayer
  | linear (in_features out_features : ℕ)
  | reluLayer
  | sigmoidLayer
deriving DecidableEq

/-- The parameters `CapsuleLayer.__init__` creates. -/
inductive CapsuleLayerParams
  | routeWeights (num_capsules num_routes in_channels out_channels : ℕ)
  | convCapsules (capsules : List Conv2dCfg)
deriving DecidableEq

/-- `CapsuleLayer.__init__`: with `num_routes != -1` a `route_weights`
parameter of shape `(num_capsules, num_routes, in_channels, out_channels)`;
otherwise a `ModuleList` of `num_capsules` convolutions.  `kernel_size` and
`stride` default to `None` (modelled as `Option ℕ`); `nn.Conv2d` would reject
`None`, so the conv branch yields `none` in that case (the source only takes
it with both provided). -/
def capsuleLayerInit (num_capsules : ℕ) (num_routes : ℤ)
    (in_channels out_channels : ℕ) (kernel_size stride : Option ℕ) :
    Option CapsuleLayerParams :=
  if num_routes ≠ -1 then
    some (.routeWeights num_capsules num_routes.toNat in_channels out_channels)
  else
    match kernel_size, stride with
    | some k, some s =>
        some (.convCapsules
          (List.replicate num_capsules ⟨in_channels, out_channels, k, s⟩))
    | _, _ => none

/-- `self.conv1 = nn.Conv2d(in_channels=1, out_channels=256, kernel_size=9, stride=1)`. -/
def capsuleNet_conv1 : Conv2dCfg := ⟨1, 256, 9, 1⟩

/-- `self.primary_capsules = CapsuleLayer(8, -1, 256, 32, kernel_size=9, stride=2)`. -/
def capsuleNet_primary_capsules : Option CapsuleLayerParams :=
  capsuleLayerInit 8 (-1) 256 32 (some 9) (some 2)

/-- `self.digit_capsules = CapsuleLayer(10, 32 * 6 * 6, 8, 16)`. -/
def capsuleNet_digit_capsules : Option CapsuleLayerParams :=
  capsuleLayerInit 10 (32 * 6 * 6) 8 16 none none

/-- `self.decoder = nn.Sequential(Linear(16*10, 512), ReLU, Linear(512, 1024),
ReLU, Linear(1024, 784), Sigmoid)`. -/
def capsuleNet_decoder : List DecoderLayer :=
  [.linear (16 * 10) 512, .reluLayer, .linear 512 1024, .reluLayer,
   .linear 1024 784, .sigmoidLayer]

/-- `nn.Sigmoid`: the logistic function applied to each component. -/
noncomputable def sigmoid (x : ℝ) : ℝ := 1 / (1 + Real.exp (-x))

/-- C5: the network topology is fixed: a 1-to-256-channel convolution with
kernel 9 and stride 1; 8 primary-capsule convolutions of 256-to-32 channels
with kernel 9 and stride 2; a digit-capsule layer with 10 capsules routing
over `32*6*6 = 1152` input capsules mapping 8 to 16 channels; a decoder of
linear layers 160-512-1024-784 ending in a sigmoid, whose output components
all lie in `[0, 1]`. -/
theorem capsule_net_fixed_topology :
    capsuleNet_conv1 = ⟨1, 256, 9, 1⟩ ∧
    capsuleNet_primary_capsules =
      some (.convCapsules (List.replicate 8 ⟨256, 32, 9, 2⟩)) ∧
    capsuleNet_digit_capsules = some (.routeWeights 10 1152 8 16) ∧
    32 * 6 * 6 = 1152 ∧
    capsuleNet_decoder = [.linear 160 512, .reluLayer, .linear 512 1024,
      .reluLayer, .linear 1024 784, .sigmoidLayer] ∧
    (∀ x : ℝ, 0 ≤ sigmoid x ∧ sigmoid x ≤ 1) := by
  refine ⟨rfl, by decide, by decide, by decide, by decide, fun x => ?_⟩
  have hpos : (0 : ℝ) < 1 + Real.exp (-x) := by
    have := Real.exp_pos (-x)
    linarith
  constructor
  · unfold sigmoid
    positivity
  · unfold sigmoid
    rw [div_le_one hpos]
    have := Real.exp_pos (-x)
    linarith

/-! ### The training and test loops (final notebook cell) -/

/-- One statement of the training batch body. -/
inductive TrainStep
  | zeroGrad
  | forwardPass (oneHotTarget : Bool)
  | computeLoss
  | backward
  | optimizerStep
  | printIterLoss
  | resetTestCounters
  | setModelEval
deriving DecidableEq

/-- The body of `for idx, (img, target) in enumerate(tqdm(train_loader))`, in
source order: `optimizer.zero_grad()`; `model(img, target)` with
`target = Variable(index_to_one_hot(target))`; `loss = margin_loss(...)`;
`loss.backward()`; `optimizer.step()`; the `print`; and the stray statements
`correct = 0`, `test_loss = 0`, `model.eval()` indented into the batch body. -/
def trainBatchBody : List TrainStep :=
  [.zeroGrad, .forwardPass true, .computeLoss, .backward, .optimizerStep,
   .printIterLoss, .resetTestCounters, .setModelEval]

/-- `torch.utils.data.DataLoader(MNIST(root=..., download=..., train=..., ...),
batch_size=..., shuffle=...)`. -/
structure DataLoaderCfg where
  train : Bool
  root : String
  download : Bool
  batch_size : ℕ
  shuffle : Bool
deriving DecidableEq

/-- The training data loader of the script. -/
def train_loader : DataLoaderCfg := ⟨true, "/tmp", true, 8, true⟩

/-- The test data loader of the script. -/
def test_loader : DataLoaderCfg := ⟨false, "/tmp", true, 8, true⟩

/-- `for e in range(10)`. -/
def numEpochs : ℕ := 10

/-- The training phase: `numEpochs` epochs, each running the batch body once
for each of the `trainBatches` batches delivered by `train_loader`. -/
def trainingPhase (trainBatches : ℕ) : List (List (List TrainStep)) :=
  List.replicate numEpochs (List.replicate trainBatches trainBatchBody)

/-- C6: the training loop is fixed: exactly 10 epochs over the MNIST training
set in shuffled batches of size 8, and every training batch executes, in
order, zero-grad, forward with the one-hot target, joint loss, backward, one
Adam step. -/
theorem training_loop_fixed (trainBatches : ℕ) :
    numEpochs = 10 ∧
    train_loader.train = true ∧
    train_loader.batch_size = 8 ∧
    train_loader.shuffle = true ∧
    (trainingPhase trainBatches).length = 10 ∧
    trainingPhase trainBatches =
      List.replicate 10 (List.replicate trainBatches trainBatchBody) ∧
    trainBatchBody.take 5 =
      [.zeroGrad, .forwardPass true, .computeLoss, .backward, .optimizerStep] := by
  refine ⟨rfl, rfl, rfl, rfl, ?_, rfl, rfl⟩
  simp [trainingPhase, numEpochs]

/-- `Tensor.view` / `Tensor.view_as`: the reshape torch rejects (raises)
unless the element counts agree. -/
def viewAs (srcShape targetShape : List ℕ) : Option (List ℕ) :=
  if srcShape.prod = targetShape.prod then some targetShape else none

/-- `t.max(dim, keepdim=True)[1]`: the index tensor keeps the reduced axis
with size 1. -/
def maxKeepdimShape (shape : List ℕ) (dim : ℕ) : List ℕ := shape.set dim 1

/-- C7 (code bug): in the test loop, `pred = classes.data.max(1, keepdim=True)[1]`
has shape (8, 1) for a test batch of 8, and
`pred.eq(target.data.view_as(pred))` views the one-hot target of shape
(8, 10) — 80 elements — as shape (8, 1) — 8 elements; `view_as` rejects the
mismatch, so the accuracy computation raises on the first test batch and the
test metrics are never printed. -/
theorem test_loop_view_as_fails :
    maxKeepdimShape [8, 10] 1 = [8, 1] ∧
    viewAs [8, 10] (maxKeepdimShape [8, 10] 1) = none := by decide

/-! ### File-system effects of the script -/

/-- A file-system effect. -/
inductive FsEffect
  | downloadMNIST (root : String) (train : Bool)
deriving DecidableEq

/-- The script's top-level statements, in source order. -/
inductive ScriptStmt
  | importLibraries
  | defineHelperFunctions
  | defineCapsuleLayerClass
  | defineMarginLossClass
  | defineCapsuleNetClass
  | setGlobals
  | buildModel
  | moveModelToCuda
  | buildOptimizer
  | buildMarginLoss
  | buildTrainLoader
  | buildTestLoader
  | runTrainAndTestLoop
deriving DecidableEq

/-- File-system effects of each statement: only the two
`MNIST(root='/tmp', download=True, ...)` dataset constructions inside the
loader constructions touch the file system; every other statement — model,
optimizer and loss construction, CUDA placement, and the whole train/test
loop with its `print`s — performs none: nothing saves parameters, optimizer
state or metrics. -/
def fsEffects : ScriptStmt → List FsEffect
  | .buildTrainLoader => [.downloadMNIST "/tmp" true]
  | .buildTestLoader => [.downloadMNIST "/tmp" false]
  | _ => []

/-- The script, in source order. -/
def script : List ScriptStmt :=
  [.importLibraries, .defineHelperFunctions, .defineCapsuleLayerClass,
   .defineMarginLossClass, .defineCapsuleNetClass, .setGlobals, .buildModel,
   .moveModelToCuda, .buildOptimizer, .buildMarginLoss, .buildTrainLoader,
   .buildTestLoader, .runTrainAndTestLoop]

/-- All file-system effects of the script, in order. -/
def scriptFsEffects : List FsEffect := (script.map fsEffects).foldr (· ++ ·) []

/-- C8: the program has no persistence layer: the only file-system effects in
the whole script are the two MNIST downloads to `/tmp` performed when the
data loaders are constructed; in particular the train/test loop writes
nothing to storage. -/
theorem no_persistence_only_mnist_download :
    scriptFsEffects = [.downloadMNIST "/tmp" true, .downloadMNIST "/tmp" false] ∧
    fsEffects .runTrainAndTestLoop = [] :=
  ⟨rfl, rfl⟩

/-! ### Shape-level semantics of `CapsuleNet.forward` -/

/-- Output spatial size of a padding-0 convolution: `(size - kernel) / stride + 1`. -/
def convOutSize (size kernel stride : ℕ) : ℕ := (size - kernel) / stride + 1

/-- Shape of `nn.Conv2d` applied to an (n, c, h, w) tensor. -/
def conv2dShape (cfg : Conv2dCfg) : List ℕ → Option (List ℕ)
  | [n, c, h, w] =>
    if c = cfg.in_channels ∧ cfg.kernel_size ≤ h ∧ cfg.kernel_size ≤ w ∧
        cfg.stride ≠ 0 then
      some [n, cfg.out_channels, convOutSize h cfg.kernel_size cfg.stride,
            convOutSize w cfg.kernel_size cfg.stride]
    else none
  | _ => none

/-- `Tensor.squeeze()` with no argument: drop ALL axes of size 1. -/
def squeezeShape (s : List ℕ) : List ℕ := s.filter (fun a => a ≠ 1)

/-- `Tensor.transpose(0, 1)`. -/
def transpose01Shape : List ℕ → Option (List ℕ)
  | a :: b :: rest => some (b :: a :: rest)
  | _ => none

/-- Right-aligned broadcasting of two equal-rank shapes. -/
def broadcastDims : List ℕ → List ℕ → Option (List ℕ)
  | [], [] => some []
  | a :: as, b :: bs => do
    let rest ← broadcastDims as bs
    if a = b then some (a :: rest)
    else if a = 1 then some (b :: rest)
    else if b = 1 then some (a :: rest)
    else none
  | _, _ => none

/-- torch broadcasting: left-pad the shorter shape with 1s, then broadcast. -/
def broadcastShapes (s t : List ℕ) : Option (List ℕ) :=
  broadcastDims (List.replicate (max s.length t.length - s.length) 1 ++ s)
    (List.replicate (max s.length t.length - t.length) 1 ++ t)

/-- Batched matrix multiply `@`: the two trailing axes multiply as matrices,
the leading axes broadcast. -/
def matmulShape (s t : List ℕ) : Option (List ℕ) :=
  if 2 ≤ s.length ∧ 2 ≤ t.length ∧
      s.getD (s.length - 1) 0 = t.getD (t.length - 2) 0 then
    (broadcastShapes (s.take (s.length - 2)) (t.take (t.length - 2))).map
      (fun lead => lead ++ [s.getD (s.length - 2) 0, t.getD (t.length - 1) 0])
  else none

/-- Shape of `CapsuleLayer.forward`, routing branch, on an input of shape
(n, routes, channels): `priors = x[None, :, :, None, :] @
route_weights[:, None, :, :, :]`, and the routing loop's
`squash_vector(probs * priors).sum(dim=2, keepdim=True)` reduces axis 2 of
the priors to 1 (softmax and squash preserve shape). -/
def routedCapsuleShape (numCapsules numRoutes inCh outCh : ℕ) :
    List ℕ → Option (List ℕ)
  | [n, r, c] =>
    (matmulShape [1, n, r, 1, c] [numCapsules, 1, numRoutes, inCh, outCh]).map
      (fun priors => priors.set 2 1)
  | _ => none

/-- Shape of the primary-capsule branch (`num_routes == -1`) on an
(n, c, h, w) input: each of the `numCapsules` convolutions is applied, viewed
as `(n, -1, 1)`, and the results are concatenated along the last axis. -/
def primaryCapsulesShape (numCapsules : ℕ) (conv : Conv2dCfg) (s : List ℕ) :
    Option (List ℕ) := do
  let cs ← conv2dShape conv s
  match cs with
  | [n, c, h, w] => some [n, c * h * w, numCapsules]
  | _ => none

/-- `view(n0, -1)`. -/
def viewFlattenShape (s : List ℕ) (n0 : ℕ) : Option (List ℕ) :=
  if n0 ≠ 0 ∧ n0 ∣ s.prod then some [n0, s.prod / n0] else none

/-- Shape of the decoder `nn.Sequential`: linear layers act on the last axis,
which must equal `in_features`; ReLU and Sigmoid preserve shape. -/
def decoderShape : List DecoderLayer → List ℕ → Option (List ℕ)
  | [], s => some s
  | .linear fIn fOut :: rest, s =>
    if s.getLast? = some fIn then decoderShape rest (s.dropLast ++ [fOut]) else none
  | .reluLayer :: rest, s => decoderShape rest s
  | .sigmoidLayer :: rest, s => decoderShape rest s

/-- Shape-level `CapsuleNet.forward` on a batch of `n` MNIST images
(n, 1, 28, 28).  `yGiven` selects between the `y`-given calling mode
(training: `y` is the (n, 10) one-hot target) and the `y`-omitted mode
(`y` built by `classes.max(dim=1)` and `index_select` on `torch.eye(10)`).
Returns the shapes of `(classes, reconstructions)`. -/
def capsuleNetForwardShape (n : ℕ) (yGiven : Bool) :
    Option (List ℕ × List ℕ) := do
  let s1 ← conv2dShape capsuleNet_conv1 [n, 1, 28, 28]
  let s2 ← primaryCapsulesShape 8 ⟨256, 32, 9, 2⟩ s1
  let s3 ← routedCapsuleShape 10 1152 8 16 s2
  let s4 ← transpose01Shape (squeezeShape s3)
  let classesShape := s4.dropLast
  let yShape ← if yGiven then some [n, 10] else
    match classesShape with
    | [b, _] => some [b, 10]
    | _ => none
  let prodShape ← broadcastShapes s4 (yShape ++ [1])
  let flat ← viewFlattenShape prodShape (s4.getD 0 0)
  let recon ← decoderShape capsuleNet_decoder flat
  some (classesShape, recon)

/-- C10 (counterexample): at batch size n = 1 the parameterless `squeeze()`
also removes the batch axis — the digit-capsule tensor (10, 1, 1, 1, 16)
becomes (10, 16), the transpose gives (16, 10) — and the forward computation
fails in both calling modes (the `x * y[:, :, None]` broadcast, resp. the
`classes.max(dim=1)`, is invalid), so neither a (1, 10) score tensor nor a
(1, 784) reconstruction tensor is produced. -/
theorem capsule_net_forward_shape_fails_at_one :
    capsuleNetForwardShape 1 true = none ∧
    capsuleNetForwardShape 1 false = none ∧
    capsuleNetForwardShape 1 true ≠ some ([1, 10], [1, 784]) ∧
    capsuleNetForwardShape 1 false ≠ some ([1, 10], [1, 784]) := by decide

/-- C10 (amended): for every batch of n ≥ 2 images, `CapsuleNet.forward`
returns class scores of shape (n, 10) and reconstructions of shape (n, 784),
in both the y-given and y-omitted calling modes; at n = 1 the parameterless
`squeeze()` also removes the batch axis and the forward computation fails. -/
theorem capsule_net_forward_shapes (n : ℕ) (h : 2 ≤ n) (yGiven : Bool) :
    capsuleNetForwardShape n yGiven = some ([n, 10], [n, 784]) := by
  have hn0 : n ≠ 0 := by omega
  have hn1 : n ≠ 1 := by omega
  have h1 : conv2dShape capsuleNet_conv1 [n, 1, 28, 28] = some [n, 256, 20, 20] := by
    simp [conv2dShape, capsuleNet_conv1, convOutSize]
  have h2 : primaryCapsulesShape 8 ⟨256, 32, 9, 2⟩ [n, 256, 20, 20] =
      some [n, 1152, 8] := by
    simp [primaryCapsulesShape, conv2dShape, convOutSize]
  have h3 : routedCapsuleShape 10 1152 8 16 [n, 1152, 8] =
      some [10, n, 1, 1, 16] := by
    simp [routedCapsuleShape, matmulShape, broadcastShapes, broadcastDims, hn1]
  have h4 : transpose01Shape (squeezeShape [10, n, 1, 1, 16]) =
      some [n, 10, 16] := by
    simp [squeezeShape, transpose01Shape, hn1]
  have h5 : broadcastShapes [n, 10, 16] [n, 10, 1] = some [n, 10, 16] := by
    simp [broadcastShapes, broadcastDims]
  have hprod : ([n, 10, 16] : List ℕ).prod = n * 160 := by
    simp [List.prod_cons]
  have h6 : viewFlattenShape [n, 10, 16] n = some [n, 160] := by
    unfold viewFlattenShape
    rw [hprod, if_pos ⟨hn0, Nat.dvd_mul_right n 160⟩,
      Nat.mul_div_cancel_left 160 (Nat.pos_of_ne_zero hn0)]
  have h7 : decoderShape capsuleNet_decoder [n, 160] = some [n, 784] := by
    simp [decoderShape, capsuleNet_decoder]
  cases yGiven with
  | true => simp [capsuleNetForwardShape, h1, h2, h3, h4, h5, h6, h7]
  | false => simp [capsuleNetForwardShape, h1, h2, h3, h4, h5, h6, h7]

/-- Witness for `capsule_net_forward_shapes` at the concrete batch size 2. -/
theorem capsule_net_forward_shapes_witness :
    2 ≤ 2 ∧ capsuleNetForwardShape 2 true = some ([2, 10], [2, 784]) :=
  ⟨by norm_num, capsule_net_forward_shapes 2 (by norm_num) true⟩

end CapsNet
